import Mathlib

/-!
Verification of the netsuite-cli scaffolding tool.

This file gives a shallow embedding, in Lean, of the parts of the Go source
relevant to the stated properties: the company-prefix derivation and the two
configuration loaders (config handling file), the script-identifier
derivation, the record-type table, the folder-catalog traversal, the
interactive folder selector, and the artifact-path computation of the add
command (add command file), plus the scoped working-directory change of the
create command (src/cmd/init.go).

Strings are modelled as lists of characters.  The Go standard-library string
helpers used by the source (strings.ToLower, strings.TrimSpace,
strings.ReplaceAll with a single-character pattern, strconv.Atoi,
filepath.Join) are modelled explicitly below; the character-class functions
model the ASCII fragment of the corresponding Unicode tables, and Go byte
indexing coincides with character indexing on that fragment.  filepath
separators are modelled as the slash of a Unix build.
-/

namespace NetSuiteCli

/-- Characters of a Lean string literal, used to write concrete inputs. -/
def s2l (s : String) : List Char := s.data

/-- ASCII fragment of Go unicode.ToLower (the only case mapping below 0x80). -/
def charToLower (c : Char) : Char :=
  if c.toNat ≥ 65 ∧ c.toNat ≤ 90 then Char.ofNat (c.toNat + 32) else c

/-- Model of Go strings.ToLower. -/
def goToLower (l : List Char) : List Char := l.map charToLower

/-- Model of Go unicode.IsSpace on the Latin-1 range: space, tab, newline,
vertical tab, form feed, carriage return, NEL, and no-break space. -/
def isGoSpace (c : Char) : Bool :=
  c.toNat = 32 || (9 ≤ c.toNat && c.toNat ≤ 13) || c.toNat = 133 || c.toNat = 160

/-- Model of Go strings.TrimSpace: drop leading and trailing space runes. -/
def goTrimSpace (l : List Char) : List Char :=
  ((l.dropWhile fun c => isGoSpace c).reverse.dropWhile fun c => isGoSpace c).reverse

/-- Model of Go strings.ReplaceAll s " " "_": the pattern is a single
character, so the replacement is a character map. -/
def spaceToUnderscore (l : List Char) : List Char :=
  l.map fun c => if c = ' ' then '_' else c

/-- Model of Go filepath.Join of two components on a Unix build, for
components that are already clean (no dot segments, no duplicated
separators), as produced by this program. -/
def goJoin (a b : List Char) : List Char :=
  if a = [] then b else if b = [] then a else a ++ '/' :: b

/-- Value of an ASCII decimal digit. -/
def digVal (c : Char) : Option Nat :=
  if 48 ≤ c.toNat ∧ c.toNat ≤ 57 then some (c.toNat - 48) else none

/-- Parse a nonempty all-digit string as a natural number. -/
def digitsToNat : List Char → Option Nat
  | [] => none
  | l => l.foldl (fun acc c => acc.bind fun n => (digVal c).map fun d => n * 10 + d) (some 0)

/-- Largest value of a 64-bit Go int. -/
def int64Max : Int := 9223372036854775807

/-- Smallest value of a 64-bit Go int. -/
def int64Min : Int := -9223372036854775808

/-- Model of Go strconv.Atoi on a 64-bit build: an optional sign followed by
at least one ASCII digit, in range for int64; everything else (including the
range overflow that Go reports through a non-nil error) is a failure. -/
def goAtoi (l : List Char) : Option Int :=
  match l with
  | '+' :: rest =>
    (digitsToNat rest).bind fun n => if (n : Int) ≤ int64Max then some (n : Int) else none
  | '-' :: rest =>
    (digitsToNat rest).bind fun n => if int64Min ≤ -(n : Int) then some (-(n : Int)) else none
  | _ =>
    (digitsToNat l).bind fun n => if (n : Int) ≤ int64Max then some (n : Int) else none

/-- Model of GetCompanyPrefix (config handling file, lines 221-232): trim the
company name; an empty result yields the fixed fallback, otherwise the name
is lowercased and truncated when longer than three characters. -/
def companyPrefixOf (companyName : List Char) : List Char :=
  let trimmed := goTrimSpace companyName
  if trimmed.length = 0 then s2l "com"
  else
    let low := goToLower trimmed
    if low.length > 3 then low.take 3 else low

/-- Model of the script-identifier derivation of runAdd (add command file,
line 240): lowercase the script name and replace every space by an
underscore. -/
def scriptIdOf (scriptName : List Char) : List Char :=
  spaceToUnderscore (goToLower scriptName)

/-- Model of the deployment-identifier derivation of runAdd (add command
file, line 241). -/
def deploymentIdOf (scriptName : List Char) : List Char :=
  s2l "customdeploy_" ++ scriptIdOf scriptName

/-- Go ProjectConfig (config handling file, lines 121-126). -/
structure GoProjectConfig where
  projectName : List Char
  companyName : List Char
  userName : List Char
  userEmail : List Char
deriving DecidableEq

/-- Go UserConfig (config handling file, lines 169-173). -/
structure GoUserConfig where
  companyName : List Char
  userName : List Char
  userEmail : List Char
deriving DecidableEq

/-- The failure cases a loader can report. -/
inductive ConfigError where
  | getwdFailed : ConfigError
  | homeDirFailed : ConfigError
  | notFound : ConfigError
  | readFailed : ConfigError
  | parseFailed : ConfigError
deriving DecidableEq

/-- State of the fixed-name configuration file at its expected location:
whether os.Stat finds it, and what os.ReadFile returns when it does. -/
structure ConfigFile where
  fileExists : Bool
  contents : Option (List Char)
deriving DecidableEq

/-- Model of LoadConfig (config handling file, lines 129-151): resolve the
current directory, report not-found when the file is absent, otherwise read
and unmarshal it.  JSON unmarshalling is the standard library's and is
passed in as a function. -/
def LoadConfig (getwdOk : Bool) (file : ConfigFile)
    (parse : List Char → Option GoProjectConfig) : Except ConfigError GoProjectConfig :=
  if getwdOk = false then .error .getwdFailed
  else if file.fileExists = false then .error .notFound
  else
    match file.contents with
    | none => .error .readFailed
    | some data =>
      match parse data with
      | none => .error .parseFailed
      | some config => .ok config

/-- Model of LoadUserConfig (config handling file, lines 176-198): resolve
the home directory; an absent file is not an error and yields the empty
result; otherwise read and unmarshal. -/
def LoadUserConfig (homeOk : Bool) (file : ConfigFile)
    (parse : List Char → Option GoUserConfig) : Except ConfigError (Option GoUserConfig) :=
  if homeOk = false then .error .homeDirFailed
  else if file.fileExists = false then .ok none
  else
    match file.contents with
    | none => .error .readFailed
    | some data =>
      match parse data with
      | none => .error .parseFailed
      | some config => .ok (some config)

/-- Environment of the bootstrap phase of runInit (src/cmd/init.go, lines
201-299), from the point the working directory is changed: the original and
output directories and the success of each step that can terminate the
process.  The steps that only print a warning on failure (the two MkdirAll
calls, the account-setup subprocess, the two configuration saves) cannot
change the trace and are not parameters. -/
structure InitEnv where
  originalDir : List Char
  outputDir : List Char
  chdirOk : Bool
  createOk : Bool
  projectDirExists : Bool
  tmplPackageOk : Bool
  tmplSuitecloudOk : Bool
  tmplTsconfigOk : Bool
  tmplGitignoreOk : Bool
deriving DecidableEq

/-- Observable result of the bootstrap phase: the working directory of the
process when it ends, and the way it ends (some code for os.Exit, none for a
normal return). -/
structure InitTrace where
  finalCwd : List Char
  exitCode : Option Nat
deriving DecidableEq

/-- Model of the bootstrap phase of runInit (src/cmd/init.go, lines 201-299).
os.Chdir(outputDir) runs first; the deferred os.Chdir(originalDir) is
registered right after it and runs only when the function returns normally:
Go does not run deferred calls on os.Exit, so every failing step after the
directory change terminates the process with the working directory still set
to the output directory.  A failing os.Chdir leaves the directory
unchanged. -/
def runInitBootstrap (e : InitEnv) : InitTrace :=
  if e.chdirOk = false then { finalCwd := e.originalDir, exitCode := some 1 }
  else if e.createOk = false then { finalCwd := e.outputDir, exitCode := some 1 }
  else if e.projectDirExists = false then { finalCwd := e.outputDir, exitCode := some 1 }
  else if e.tmplPackageOk = false then { finalCwd := e.outputDir, exitCode := some 1 }
  else if e.tmplSuitecloudOk = false then { finalCwd := e.outputDir, exitCode := some 1 }
  else if e.tmplTsconfigOk = false then { finalCwd := e.outputDir, exitCode := some 1 }
  else if e.tmplGitignoreOk = false then { finalCwd := e.outputDir, exitCode := some 1 }
  else { finalCwd := e.originalDir, exitCode := none }

mutual

/-- A directory of the filesystem under the destination root: whether it can
be read (os.ReadDir succeeds) and its subdirectories.  Plain files are
skipped by the traversal (entry.IsDir()) and are not modelled. -/
inductive FSTree : Type where
  | node : Bool → FSForest → FSTree

/-- The subdirectories of a directory, in directory-listing order, each with
its entry name.  Entry names are plain names without separators. -/
inductive FSForest : Type where
  | nil : FSForest
  | cons : List Char → FSTree → FSForest → FSForest

end

/-- Whether os.ReadDir succeeds on the directory. -/
def FSTree.readable : FSTree → Bool
  | .node r _ => r

/-- The subdirectory listing of the directory. -/
def FSTree.children : FSTree → FSForest
  | .node _ f => f

/-- Go FolderOption (add command file, lines 396-400). -/
structure FolderOption where
  path : List Char
  display : List Char
  fullPath : List Char
deriving DecidableEq

/-- Number of separators in a relative path, as counted by strings.Count for
the depth of an entry. -/
def countSep (l : List Char) : Nat := l.countP fun c => c = '/'

/-- strings.Repeat("  ", depth), the indentation of a display label. -/
def indentOf (depth : Nat) : List Char := (List.replicate depth (s2l "  ")).flatten

/-- The display label of an entry (add command file, lines 450-455). -/
def displayOf (name entryRelativePath : List Char) : List Char :=
  let depth := countSep entryRelativePath
  indentOf depth ++ name ++
    (if depth > 0 then ' ' :: '(' :: entryRelativePath ++ [')'] else [])

mutual

/-- Model of findAllFolders (add command file, lines 428-469) over a static
filesystem tree.  An unreadable directory returns the empty list; otherwise
every subdirectory contributes its option followed by the recursive
enumeration of its own subtree, in listing order.  On a Unix build the
netSuitePath of an entry equals its relative path (the separator replacement
is the identity). -/
def findAllFolders (baseDir : List Char) (t : FSTree) (relativePath : List Char) :
    List FolderOption :=
  match t with
  | .node false _ => []
  | .node true entries => findAllFoldersEntries baseDir entries relativePath

/-- The loop body of findAllFolders over the directory listing. -/
def findAllFoldersEntries (baseDir : List Char) (f : FSForest) (relativePath : List Char) :
    List FolderOption :=
  match f with
  | .nil => []
  | .cons name child rest =>
    let entryRelativePath := if relativePath = [] then name else relativePath ++ '/' :: name
    { path := entryRelativePath
      display := displayOf name entryRelativePath
      fullPath := goJoin (goJoin baseDir relativePath) name } ::
      (findAllFolders baseDir child entryRelativePath ++
        findAllFoldersEntries baseDir rest relativePath)

end

mutual

/-- The sequence of relative paths of a pre-order depth-first traversal,
written from the spec: every directory appears before all of its
descendants, siblings in directory-listing order, and an unreadable
directory is treated as empty. -/
def specPreOrder (t : FSTree) (relativePath : List Char) : List (List Char) :=
  match t with
  | .node false _ => []
  | .node true entries => specPreOrderEntries entries relativePath

/-- Pre-order traversal of a directory listing. -/
def specPreOrderEntries (f : FSForest) (relativePath : List Char) : List (List Char) :=
  match f with
  | .nil => []
  | .cons name child rest =>
    let entryRelativePath := if relativePath = [] then name else relativePath ++ '/' :: name
    entryRelativePath ::
      (specPreOrder child entryRelativePath ++ specPreOrderEntries rest relativePath)

end

mutual

/-- Total number of readable-reachable subdirectories below a directory. -/
def dirCount : FSTree → Nat
  | .node false _ => 0
  | .node true entries => dirCountEntries entries

/-- Subdirectory count of a listing. -/
def dirCountEntries : FSForest → Nat
  | .nil => 0
  | .cons _ child rest => 1 + dirCount child + dirCountEntries rest

end

/-- Membership of a named subdirectory in a directory listing. -/
inductive FMem : List Char → FSTree → FSForest → Prop where
  | head (n : List Char) (t : FSTree) (rest : FSForest) : FMem n t (.cons n t rest)
  | tail (n : List Char) (t : FSTree) (m : List Char) (s : FSTree) (rest : FSForest) :
      FMem n t rest → FMem n t (.cons m s rest)

/-- Normalization applied to an interactive answer before dispatch:
strings.TrimSpace(strings.ToLower(input)). -/
def normalizeInput (raw : List Char) : List Char := goTrimSpace (goToLower raw)

/-- Entries shown per page of the scrollable menu (add command file,
line 473). -/
def pageSize : Nat := 20

/-- Page count of the scrollable menu (add command file, line 476):
(len(folders) + pageSize - 1) / pageSize. -/
def totalPages (n : Nat) : Nat := (n + pageSize - 1) / pageSize

/-- One transition of the scrollable menu on one line of input. -/
inductive MenuStep where
  | nextPage : Nat → MenuStep
  | prevPage : Nat → MenuStep
  | selectRoot : MenuStep
  | selectEntry : Nat → MenuStep
  | invalid : Nat → MenuStep
deriving DecidableEq

/-- Dispatch of one loop iteration of displayScrollableMenu on the already
normalized input. -/
def menuStepCore (n : Nat) (currentPage : Nat) (input : List Char) : MenuStep :=
  if totalPages n > 1 ∧ input = s2l "n" ∧ currentPage < totalPages n - 1 then
    .nextPage (currentPage + 1)
  else if totalPages n > 1 ∧ input = s2l "p" ∧ currentPage > 0 then
    .prevPage (currentPage - 1)
  else
    match goAtoi input with
    | none => .invalid currentPage
    | some selection =>
      if selection = 0 then .selectRoot
      else if selection < 1 ∨ selection > (n : Int) then .invalid currentPage
      else .selectEntry (selection - 1).toNat

/-- Model of the dispatch of one loop iteration of displayScrollableMenu
(add command file, lines 517-558) for a catalog of n entries: the line is
lowercased and trimmed; navigation tokens are honoured only when more than
one page exists and the move stays in range; otherwise the token is parsed
as an integer, 0 selects the root, 1..n selects an entry, and everything
else is an error that re-prompts on the same page. -/
def menuStep (n : Nat) (currentPage : Nat) (rawLine : List Char) : MenuStep :=
  menuStepCore n currentPage (normalizeInput rawLine)

/-- Result of the folder selector: some os.Exit code, or a selected folder
(empty for the root) together with the script-path marker. -/
inductive SelectResult where
  | exited : Nat → SelectResult
  | selected : List Char → List Char → SelectResult
deriving DecidableEq

/-- The fixed marker prepended to the in-system script path (add command
file, line 406). -/
def scriptPathMarker : List Char := s2l "SuiteScripts/"

/-- Model of the loop of displayScrollableMenu over the successive stdin
lines: a failing read (exhausted input) exits with status 1; navigation and
errors re-enter the loop; a selection returns the folder path. -/
def menuLoop (folders : List FolderOption) (page : Nat) :
    List (List Char) → SelectResult
  | [] => .exited 1
  | line :: rest =>
    match menuStep folders.length page line with
    | .nextPage p => menuLoop folders p rest
    | .prevPage p => menuLoop folders p rest
    | .invalid p => menuLoop folders p rest
    | .selectRoot => .selected [] scriptPathMarker
    | .selectEntry i =>
      .selected (((folders.get? i).map fun f => f.path).getD []) scriptPathMarker

/-- Model of selectScriptFolder (add command file, lines 403-425): with an
empty catalog the paginated menu is bypassed and a single yes/no question
decides between the root (affirmative) and cancelling the whole operation
with os.Exit(0); otherwise the scrollable menu runs from page 0. -/
def selectScriptFolder (folders : List FolderOption) (stdinLines : List (List Char)) :
    SelectResult :=
  if folders.length = 0 then
    match stdinLines with
    | [] => .exited 1
    | answer :: _ =>
      let response := normalizeInput answer
      if response ≠ s2l "y" ∧ response ≠ s2l "yes" then .exited 0
      else .selected [] scriptPathMarker
  else menuLoop folders 0 stdinLines

/-- ASCII fragment of Go unicode.IsUpper. -/
def isGoUpper (c : Char) : Bool := 65 ≤ c.toNat && c.toNat ≤ 90

/-- ASCII fragment of Go unicode.IsLower. -/
def isGoLower (c : Char) : Bool := 97 ≤ c.toNat && c.toNat ≤ 122

/-- ASCII fragment of Go unicode.IsDigit. -/
def isGoDigit (c : Char) : Bool := 48 ≤ c.toNat && c.toNat ≤ 57

/-- The builder loop of toSnakeCase (add command file, lines 69-89).  The
accumulator holds the built string in reverse (so its head is the most
recently written character); first means the rune index is 0. -/
def snakeLoop (acc : List Char) (first : Bool) (prevLower : Bool) : List Char → List Char
  | [] => acc.reverse
  | c :: rest =>
    if isGoUpper c then
      let acc1 := if first = false ∧ prevLower = true then '_' :: acc else acc
      snakeLoop (charToLower c :: acc1) false false rest
    else if isGoLower c || isGoDigit c then
      snakeLoop (c :: acc) false true rest
    else
      let acc1 :=
        if first = false ∧ acc ≠ [] ∧ acc.head? ≠ some '_' then '_' :: acc else acc
      snakeLoop acc1 false false rest

/-- The regexp replacement of runs of underscores by one underscore (add
command file, lines 92-93); prev records whether the previous kept
character was an underscore. -/
def squeezeUnderscores (prev : Bool) : List Char → List Char
  | [] => []
  | c :: rest =>
    if c = '_' then
      if prev then squeezeUnderscores true rest else '_' :: squeezeUnderscores true rest
    else c :: squeezeUnderscores false rest

/-- strings.Trim(s, "_"): drop leading and trailing underscores. -/
def trimUnderscores (l : List Char) : List Char :=
  ((l.dropWhile fun c => c = '_').reverse.dropWhile fun c => c = '_').reverse

/-- Model of toSnakeCase (add command file, lines 64-97). -/
def toSnakeCase (s : List Char) : List Char :=
  if s = [] then []
  else goToLower (trimUnderscores (squeezeUnderscores false (snakeLoop [] true false s)))

/-- Model of getRecordType (add command file, lines 45-61): the fixed
category-to-record-type table; categories without a mapping yield the empty
string. -/
def getRecordType (scriptType : List Char) : List Char :=
  if scriptType = s2l "client" then s2l "clientscript"
  else if scriptType = s2l "mapreduce" then s2l "mapreducescript"
  else if scriptType = s2l "massupdate" then s2l "massupdatescript"
  else if scriptType = s2l "portlet" then s2l "portlet"
  else if scriptType = s2l "restlet" then s2l "restlet"
  else if scriptType = s2l "scheduled" then s2l "scheduledscript"
  else if scriptType = s2l "suitelet" then s2l "suitelet"
  else if scriptType = s2l "userevent" then s2l "usereventscript"
  else if scriptType = s2l "workflowaction" then s2l "workflowactionscript"
  else []

/-- Go ScriptTemplates (add command file, lines 39-42): the embedded
template pair of a category. -/
structure ScriptTemplates where
  typeScript : List Char
  xml : List Char
deriving DecidableEq

/-- Modelled from the spec: the embedded template files under templates/ are
not among the available sources.  Per the spec, every category carries a
pair of template bodies and the secondary (XML) body may be empty, and the
categories without a record-type tag (bundle, formclient, common) skip
secondary-artifact generation; their XML body is the empty string. -/
def templatesOfUnmappedCategory (tsBody : List Char) : ScriptTemplates :=
  { typeScript := tsBody, xml := [] }

/-- Go TemplateData (add command file, lines 149-162). -/
structure TemplateData where
  project : List Char
  projectName : List Char
  description : List Char
  date : List Char
  companyName : List Char
  userName : List Char
  userEmail : List Char
  scriptName : List Char
  scriptId : List Char
  scriptPath : List Char
  deploymentId : List Char
  recordType : List Char
deriving DecidableEq

/-- Environment of one invocation of runAdd: the outcome of the
configuration load, the positional arguments, the successive interactive
answers (none models a failed read), the embedded template pair of the
category, the results of the two directory-locating helpers (none models
their failure), the filesystem tree under the SuiteScripts directory, the
stdin lines consumed by the folder selector, the success of each MkdirAll,
the success of each render-and-write step (covering template parse,
execution and file write), and the formatted current date. -/
structure AddEnv where
  loadConfig : Option GoProjectConfig
  args : List (List Char)
  scriptNameLine : Option (List Char)
  descriptionLine : Option (List Char)
  recordTypeLine : Option (List Char)
  templates : ScriptTemplates
  suiteScriptsDir : Option (List Char)
  tree : FSTree
  stdinLines : List (List Char)
  mkdirTargetOk : Bool
  objectsDir : Option (List Char)
  mkdirXmlOk : Bool
  writeTsOk : Bool
  writeXmlOk : Bool
  today : List Char

/-- Observable outcome of one invocation of runAdd: how the process ended
(some code for os.Exit, none for a normal return), the artifact paths
written, the MkdirAll targets requested by runAdd itself, and the template
data record in effect at the end (none when the invocation failed before
building it). -/
structure AddOutcome where
  exitCode : Option Nat
  writes : List (List Char)
  dirs : List (List Char)
  finalData : Option TemplateData
deriving DecidableEq

/-- Model of runAdd (add command file, lines 165-316).  Strings follow the
source: the script name comes from the positional argument or the prompt
with the snake-cased project name as default; the description defaults to
"<scriptName> description"; userevent and workflowaction require a nonempty
record type; identifiers and the company prefix are derived; the primary
artifact goes to the selected folder under the SuiteScripts directory and
the secondary artifact, for categories with a record-type tag and a
nonempty XML template (and not common), under
<objectsDir>/<projectName>/<recordTypeTag>.  On a Unix build the separator
replacement on the selected folder is the identity. -/
def runAdd (scriptType : List Char) (env : AddEnv) : AddOutcome :=
  match env.loadConfig with
  | none => { exitCode := some 1, writes := [], dirs := [], finalData := none }
  | some config =>
    let defaultScriptName := toSnakeCase config.projectName
    let nameRes : Option (List Char) :=
      match env.args with
      | a :: _ => some a
      | [] =>
        match env.scriptNameLine with
        | none => none
        | some line =>
          let t := goTrimSpace line
          some (if t = [] then defaultScriptName else t)
    match nameRes with
    | none => { exitCode := some 1, writes := [], dirs := [], finalData := none }
    | some scriptName =>
      if scriptName = [] then
        { exitCode := some 1, writes := [], dirs := [], finalData := none }
      else
        match env.descriptionLine with
        | none => { exitCode := some 1, writes := [], dirs := [], finalData := none }
        | some dline =>
          let d0 := goTrimSpace dline
          let description := if d0 = [] then scriptName ++ s2l " description" else d0
          let recordTypeRes : Option (List Char) :=
            if scriptType = s2l "userevent" ∨ scriptType = s2l "workflowaction" then
              match env.recordTypeLine with
              | none => none
              | some rline =>
                let r := goTrimSpace rline
                if r = [] then none else some r
            else some []
          match recordTypeRes with
          | none => { exitCode := some 1, writes := [], dirs := [], finalData := none }
          | some recordTypePrompted =>
            let scriptId := scriptIdOf scriptName
            let deploymentId := s2l "customdeploy_" ++ scriptId
            let companyPfx := companyPrefixOf config.companyName
            let prefixedFileName := companyPfx ++ '_' :: scriptName
            let tsFileNameWithType := prefixedFileName ++ '_' :: scriptType
            let data0 : TemplateData :=
              { project := config.projectName
                projectName := config.projectName
                description := description
                date := env.today
                companyName := config.companyName
                userName := config.userName
                userEmail := config.userEmail
                scriptName := scriptName
                scriptId := s2l "customscript_" ++ scriptId
                scriptPath :=
                  s2l "SuiteScripts/" ++ config.projectName ++ '/' :: tsFileNameWithType ++
                    s2l ".ts"
                deploymentId := deploymentId
                recordType := recordTypePrompted }
            match env.suiteScriptsDir with
            | none => { exitCode := some 1, writes := [], dirs := [], finalData := some data0 }
            | some ssDir =>
              let folders := findAllFolders ssDir env.tree []
              match selectScriptFolder folders env.stdinLines with
              | .exited code =>
                { exitCode := some code, writes := [], dirs := [], finalData := some data0 }
              | .selected selectedFolder marker =>
                let targetDir := goJoin ssDir selectedFolder
                if env.mkdirTargetOk = false then
                  { exitCode := some 1, writes := [], dirs := [targetDir],
                    finalData := some data0 }
                else
                  let data :=
                    { data0 with
                        scriptPath :=
                          if selectedFolder ≠ [] then
                            marker ++ selectedFolder ++ '/' :: tsFileNameWithType ++ s2l ".ts"
                          else marker ++ tsFileNameWithType ++ s2l ".ts" }
                  let tsPath := goJoin targetDir (tsFileNameWithType ++ s2l ".ts")
                  if env.writeTsOk = false then
                    { exitCode := some 1, writes := [], dirs := [targetDir],
                      finalData := some data }
                  else
                    if env.templates.xml ≠ [] ∧ scriptType ≠ s2l "common" then
                      match env.objectsDir with
                      | none =>
                        { exitCode := some 1, writes := [tsPath], dirs := [targetDir],
                          finalData := some data }
                      | some oDir =>
                        let recordTypeTag := getRecordType scriptType
                        if recordTypeTag = [] then
                          { exitCode := none, writes := [tsPath], dirs := [targetDir],
                            finalData := some data }
                        else
                          let xmlTargetDir :=
                            goJoin (goJoin oDir config.projectName) recordTypeTag
                          if env.mkdirXmlOk = false then
                            { exitCode := some 1, writes := [tsPath],
                              dirs := [targetDir, xmlTargetDir], finalData := some data }
                          else
                            let xmlPath := goJoin xmlTargetDir (prefixedFileName ++ s2l ".xml")
                            if env.writeXmlOk = false then
                              { exitCode := some 1, writes := [tsPath],
                                dirs := [targetDir, xmlTargetDir], finalData := some data }
                            else
                              { exitCode := none, writes := [tsPath, xmlPath],
                                dirs := [targetDir, xmlTargetDir], finalData := some data }
                    else
                      { exitCode := none, writes := [tsPath], dirs := [targetDir],
                        finalData := some data }

/-- A demonstration project configuration used by concrete witnesses. -/
def cfgDemo : GoProjectConfig :=
  { projectName := s2l "acme-proj", companyName := s2l "Acme",
    userName := s2l "jdoe", userEmail := s2l "jdoe@x.com" }

/-- Concrete environment of a bundle invocation: one positional argument,
empty-catalog selector answered affirmatively, unmapped-category templates. -/
def envBundle : AddEnv :=
  { loadConfig := some cfgDemo
    args := [s2l "My Report"]
    scriptNameLine := none
    descriptionLine := some (s2l "")
    recordTypeLine := none
    templates := templatesOfUnmappedCategory (s2l "TS")
    suiteScriptsDir := some (s2l "SuiteScripts")
    tree := .node true .nil
    stdinLines := [s2l "y"]
    mkdirTargetOk := true
    objectsDir := none
    mkdirXmlOk := true
    writeTsOk := true
    writeXmlOk := true
    today := s2l "2026-10-11" }

/-- Concrete environment of a userevent invocation with a prompted record
type and a nonempty XML template. -/
def envUserEvent : AddEnv :=
  { envBundle with
      recordTypeLine := some (s2l "CUSTOMER")
      templates := { typeScript := s2l "TS", xml := s2l "XML" }
      objectsDir := some (s2l "src/Objects") }

/-- Concrete environment of a suitelet invocation whose empty-catalog
question is declined. -/
def envCancel : AddEnv :=
  { envBundle with
      templates := { typeScript := s2l "TS", xml := s2l "XML" }
      stdinLines := [s2l "no"]
      objectsDir := some (s2l "src/Objects") }

/-- Packing a valid scalar value and unpacking it is the identity. -/
theorem toNat_charOfNat (n : Nat) (h : n.isValidChar) : (Char.ofNat n).toNat = n := by
  rw [Char.ofNat, dif_pos h]
  rfl

/-- On an upper-case ASCII letter, the case map adds 32. -/
theorem toNat_charToLower_upper (c : Char) (h : c.toNat ≥ 65 ∧ c.toNat ≤ 90) :
    (charToLower c).toNat = c.toNat + 32 := by
  unfold charToLower
  rw [if_pos h]
  exact toNat_charOfNat _ (Or.inl (by omega))

/-- Unfolding equation for the character case map. -/
theorem charToLower_eq (c : Char) :
    charToLower c = if c.toNat ≥ 65 ∧ c.toNat ≤ 90 then Char.ofNat (c.toNat + 32) else c := rfl

/-- Lowercasing a character twice is the same as doing it once. -/
theorem charToLower_idem (c : Char) : charToLower (charToLower c) = charToLower c := by
  by_cases h : c.toNat ≥ 65 ∧ c.toNat ≤ 90
  · have h2 : (charToLower c).toNat = c.toNat + 32 := toNat_charToLower_upper c h
    rw [charToLower_eq (charToLower c), if_neg (by omega)]
  · rw [charToLower_eq (charToLower c), charToLower_eq c, if_neg h, if_neg h]

/-- Lowercasing preserves the length of a string. -/
theorem length_goToLower (l : List Char) : (goToLower l).length = l.length :=
  List.length_map l charToLower

/-- Normal form of the prefix derivation: the fallback on an all-space name,
otherwise the first (at most) three characters of the lowercased trimmed name. -/
theorem companyPrefixOf_eq (c : List Char) :
    companyPrefixOf c =
      if goTrimSpace c = [] then s2l "com" else (goToLower (goTrimSpace c)).take 3 := by
  unfold companyPrefixOf
  by_cases h : goTrimSpace c = []
  · simp [h, s2l]
  · have hl : (goTrimSpace c).length ≠ 0 := by
      simpa using fun h0 => h (List.length_eq_zero.mp h0)
    rw [if_neg hl, if_neg h]
    by_cases h3 : (goToLower (goTrimSpace c)).length > 3
    · rw [if_pos h3]
    · rw [if_neg h3]
      exact (List.take_of_length_le (by omega)).symm

/-- C1, counterexample.  On the company name "ab" the derived prefix is "ab",
which neither has exactly three characters nor equals the fallback "com"; and
on the company name "  abc" the derived prefix is "abc", not the truncation
of the lowercased untrimmed name.  So the claim as stated is false. -/
theorem companyPrefixOf_claim_counterexample :
    companyPrefixOf (s2l "ab") = s2l "ab" ∧
    ¬ ((companyPrefixOf (s2l "ab")).length = 3 ∨ companyPrefixOf (s2l "ab") = s2l "com") ∧
    companyPrefixOf (s2l "  abc") ≠ (goToLower (s2l "  abc")).take 3 := by
  refine ⟨by decide, ?_, by decide⟩
  decide

/-- C1, amended.  The derived prefix is the fallback "com" when the company
name is empty after trimming, and otherwise the first at most three
characters of the lowercased trimmed name; its length is always at most
three, and is exactly three whenever the trimmed name has at least three
characters. -/
theorem companyPrefixOf_amended (c : List Char) :
    (goTrimSpace c = [] → companyPrefixOf c = s2l "com") ∧
    (goTrimSpace c ≠ [] → companyPrefixOf c = (goToLower (goTrimSpace c)).take 3) ∧
    (companyPrefixOf c).length ≤ 3 ∧
    (3 ≤ (goTrimSpace c).length → (companyPrefixOf c).length = 3) := by
  rw [companyPrefixOf_eq]
  by_cases h : goTrimSpace c = []
  · refine ⟨fun _ => by rw [if_pos h], fun hc => absurd h hc, ?_, ?_⟩
    · rw [if_pos h]; decide
    · intro h3
      rw [h] at h3
      simp at h3
  · have hlen : ((goToLower (goTrimSpace c)).take 3).length
        = min 3 (goTrimSpace c).length := by
      rw [List.length_take, length_goToLower]
    refine ⟨fun hc => absurd hc h, fun _ => by rw [if_neg h], ?_, ?_⟩
    · rw [if_neg h]
      omega
    · intro h3
      rw [if_neg h]
      omega

/-- C1, witness for the amended theorem at the concrete name " ABCD ". -/
theorem companyPrefixOf_amended_witness :
    companyPrefixOf (s2l " ABCD ") = (goToLower (goTrimSpace (s2l " ABCD "))).take 3 :=
  (companyPrefixOf_amended (s2l " ABCD ")).2.1 (by decide)

/-- Per-character form of the identifier derivation. -/
theorem scriptIdOf_eq_map (s : List Char) :
    scriptIdOf s = s.map fun c => if charToLower c = ' ' then '_' else charToLower c := by
  unfold scriptIdOf spaceToUnderscore goToLower
  rw [List.map_map]
  rfl

/-- One identifier-derivation step on a character is idempotent. -/
theorem charStep_idem (c : Char) :
    (fun c => if charToLower c = ' ' then '_' else charToLower c)
      ((fun c => if charToLower c = ' ' then '_' else charToLower c) c)
    = (fun c => if charToLower c = ' ' then '_' else charToLower c) c := by
  by_cases h : charToLower c = ' '
  · simp only [h, if_pos]
    decide
  · simp only [if_neg h, charToLower_idem c, if_neg h]

/-- C8.  The derived script identifier is the lowercased script name with
every space replaced by an underscore; the derivation is idempotent; the
deployment identifier is the fixed tag "customdeploy_" followed by the
script identifier; and equal script names yield equal identifiers. -/
theorem scriptId_spec (s : List Char) :
    scriptIdOf s = spaceToUnderscore (goToLower s) ∧
    scriptIdOf (scriptIdOf s) = scriptIdOf s ∧
    deploymentIdOf s = s2l "customdeploy_" ++ scriptIdOf s ∧
    (∀ t : List Char, s = t → scriptIdOf s = scriptIdOf t ∧ deploymentIdOf s = deploymentIdOf t) := by
  refine ⟨rfl, ?_, rfl, fun t h => by rw [h]; exact ⟨rfl, rfl⟩⟩
  rw [scriptIdOf_eq_map, scriptIdOf_eq_map, List.map_map]
  exact List.map_congr_left fun c _ => charStep_idem c

/-- C8, witness at the concrete script name "My Report". -/
theorem scriptId_spec_witness :
    scriptIdOf (s2l "My Report") = s2l "my_report" ∧
    scriptIdOf (scriptIdOf (s2l "My Report")) = scriptIdOf (s2l "My Report") ∧
    deploymentIdOf (s2l "My Report") = s2l "customdeploy_my_report" :=
  ⟨by decide, (scriptId_spec (s2l "My Report")).2.1, by decide⟩

/-- C9.  When the preference file is absent, the user-scoped loader succeeds
with the empty result while the project-scoped loader fails with the
not-found error, for every possible file contents and unmarshaller. -/
theorem load_config_absence (file : ConfigFile)
    (pp : List Char → Option GoProjectConfig) (pu : List Char → Option GoUserConfig)
    (h : file.fileExists = false) :
    LoadUserConfig true file pu = .ok none ∧ LoadConfig true file pp = .error .notFound := by
  unfold LoadUserConfig LoadConfig
  rw [h]
  exact ⟨rfl, rfl⟩

/-- C9, witness at a concrete absent file. -/
theorem load_config_absence_witness :
    LoadUserConfig true ⟨false, none⟩ (fun _ => none) = .ok none ∧
    LoadConfig true ⟨false, none⟩ (fun _ => none) = .error .notFound :=
  load_config_absence ⟨false, none⟩ (fun _ => none) (fun _ => none) rfl

/-- C7, counterexample.  When the project-creation subprocess fails after the
directory change, the function exits through os.Exit(1) and the deferred
restore never runs: the process ends with its working directory equal to the
output directory, not the original one.  So restoration on every exit path is
false. -/
theorem initBootstrap_claim_counterexample :
    (runInitBootstrap ⟨s2l "/home/u", s2l "/out", true, false, true, true, true, true, true⟩).exitCode
      = some 1 ∧
    (runInitBootstrap ⟨s2l "/home/u", s2l "/out", true, false, true, true, true, true, true⟩).finalCwd
      = s2l "/out" ∧
    s2l "/out" ≠ s2l "/home/u" := by
  decide

/-- C7, amended.  The working directory is restored by the deferred call on
the normal-return path, and is never changed when the initial chdir itself
fails; but on every early failure exit after a successful chdir the process
terminates via os.Exit with the working directory still set to the output
directory (Go skips deferred calls on os.Exit). -/
theorem initBootstrap_amended (e : InitEnv) :
    ((runInitBootstrap e).exitCode = none → (runInitBootstrap e).finalCwd = e.originalDir) ∧
    (e.chdirOk = false → (runInitBootstrap e).finalCwd = e.originalDir) ∧
    (e.chdirOk = true → (runInitBootstrap e).exitCode = some 1 →
      (runInitBootstrap e).finalCwd = e.outputDir) := by
  unfold runInitBootstrap
  obtain ⟨o, d, c1, c2, c3, c4, c5, c6, c7⟩ := e
  cases c1 <;> cases c2 <;> cases c3 <;> cases c4 <;> cases c5 <;> cases c6 <;> cases c7 <;>
    simp

/-- C7, witness: on a fully successful bootstrap the trace ends normally with
the original directory restored. -/
theorem initBootstrap_amended_witness :
    (runInitBootstrap ⟨s2l "/home/u", s2l "/out", true, true, true, true, true, true, true⟩).finalCwd
      = s2l "/home/u" :=
  (initBootstrap_amended ⟨s2l "/home/u", s2l "/out", true, true, true, true, true, true, true⟩).1
    (by decide)

mutual

/-- The paths enumerated by the traversal are precisely the spec's pre-order
sequence. -/
theorem findAllFolders_map_path (base : List Char) (t : FSTree) (rel : List Char) :
    (findAllFolders base t rel).map FolderOption.path = specPreOrder t rel :=
  match t with
  | .node false _ => rfl
  | .node true entries => findAllFoldersEntries_map_path base entries rel

/-- Listing-level version of findAllFolders_map_path. -/
theorem findAllFoldersEntries_map_path (base : List Char) (f : FSForest) (rel : List Char) :
    (findAllFoldersEntries base f rel).map FolderOption.path = specPreOrderEntries f rel :=
  match f with
  | .nil => rfl
  | .cons name child rest => by
    unfold findAllFoldersEntries specPreOrderEntries
    simp only [List.map_cons, List.map_append]
    rw [findAllFolders_map_path base child, findAllFoldersEntries_map_path base rest]

end

mutual

/-- The traversal enumerates exactly one option per readable-reachable
subdirectory. -/
theorem findAllFolders_length (base : List Char) (t : FSTree) (rel : List Char) :
    (findAllFolders base t rel).length = dirCount t :=
  match t with
  | .node false _ => rfl
  | .node true entries => findAllFoldersEntries_length base entries rel

/-- Listing-level version of findAllFolders_length. -/
theorem findAllFoldersEntries_length (base : List Char) (f : FSForest) (rel : List Char) :
    (findAllFoldersEntries base f rel).length = dirCountEntries f :=
  match f with
  | .nil => rfl
  | .cons name child rest => by
    unfold findAllFoldersEntries dirCountEntries
    simp only [List.length_cons, List.length_append]
    rw [findAllFolders_length base child, findAllFoldersEntries_length base rest]
    omega

end

/-- Each directory entry is followed immediately by the enumeration of its
whole subtree: parents come before all of their descendants, and earlier
siblings (with their subtrees) make up the prefix before the entry. -/
theorem findAllFoldersEntries_decomp (base rel n : List Char) (child : FSTree)
    (f : FSForest) (hm : FMem n child f) :
    ∃ pre post,
      findAllFoldersEntries base f rel =
        pre ++
          { path := if rel = [] then n else rel ++ '/' :: n
            display := displayOf n (if rel = [] then n else rel ++ '/' :: n)
            fullPath := goJoin (goJoin base rel) n } ::
          (findAllFolders base child (if rel = [] then n else rel ++ '/' :: n) ++ post) := by
  induction hm with
  | head rest =>
    exact ⟨[], findAllFoldersEntries base rest rel, rfl⟩
  | tail m s rest _ ih =>
    obtain ⟨pre, post, h⟩ := ih
    refine ⟨{ path := if rel = [] then m else rel ++ '/' :: m
              display := displayOf m (if rel = [] then m else rel ++ '/' :: m)
              fullPath := goJoin (goJoin base rel) m } ::
        (findAllFolders base s (if rel = [] then m else rel ++ '/' :: m) ++ pre), post, ?_⟩
    unfold findAllFoldersEntries
    rw [h]
    simp [List.append_assoc]

/-- C4.  Folder-catalog enumeration produces the spec's pre-order sequence
(the path sequence equals the pre-order traversal, with every directory
entry immediately followed by the full enumeration of its descendants and
siblings in listing order); an unreadable directory is treated as empty; a
root with no subdirectories yields the empty sequence; and the sequence is
finite with exactly one entry per readable-reachable subdirectory. -/
theorem folderCatalog_preorder :
    (∀ base t rel, (findAllFolders base t rel).map FolderOption.path = specPreOrder t rel) ∧
    (∀ base t rel, FSTree.readable t = false → findAllFolders base t rel = []) ∧
    (∀ base, findAllFolders base (.node true .nil) [] = []) ∧
    (∀ base t rel, (findAllFolders base t rel).length = dirCount t) ∧
    (∀ base rel n child f, FMem n child f →
      ∃ pre post,
        findAllFolders base (.node true f) rel =
          pre ++
            { path := if rel = [] then n else rel ++ '/' :: n
              display := displayOf n (if rel = [] then n else rel ++ '/' :: n)
              fullPath := goJoin (goJoin base rel) n } ::
            (findAllFolders base child (if rel = [] then n else rel ++ '/' :: n) ++ post)) := by
  refine ⟨findAllFolders_map_path, ?_, fun _ => rfl, findAllFolders_length, ?_⟩
  · intro base t rel h
    match t, h with
    | .node false _, _ => rfl
  · intro base rel n child f hm
    exact findAllFoldersEntries_decomp base rel n child f hm

/-- C4, witness: decomposition at a concrete two-entry listing whose first
entry has one child. -/
theorem folderCatalog_preorder_witness :
    ∃ pre post,
      findAllFolders (s2l "SuiteScripts")
          (.node true (.cons (s2l "a")
            (.node true (.cons (s2l "sub") (.node true .nil) .nil))
            (.cons (s2l "b") (.node true .nil) .nil))) [] =
        pre ++
          { path := if ([] : List Char) = [] then s2l "a" else [] ++ '/' :: s2l "a"
            display := displayOf (s2l "a") (if ([] : List Char) = [] then s2l "a" else [] ++ '/' :: s2l "a")
            fullPath := goJoin (goJoin (s2l "SuiteScripts") []) (s2l "a") } ::
          (findAllFolders (s2l "SuiteScripts")
              (.node true (.cons (s2l "sub") (.node true .nil) .nil))
              (if ([] : List Char) = [] then s2l "a" else [] ++ '/' :: s2l "a") ++ post) :=
  folderCatalog_preorder.2.2.2.2 (s2l "SuiteScripts") [] (s2l "a")
    (.node true (.cons (s2l "sub") (.node true .nil) .nil))
    (.cons (s2l "a") (.node true (.cons (s2l "sub") (.node true .nil) .nil))
      (.cons (s2l "b") (.node true .nil) .nil))
    (FMem.head _ _ _)

/-- The token "n" advances exactly when another page remains. -/
theorem menuStepCore_n_token (n page : Nat) (inp : List Char) (h1 : inp = s2l "n") :
    (page + 1 < totalPages n → menuStepCore n page inp = .nextPage (page + 1)) ∧
    (¬ page + 1 < totalPages n → menuStepCore n page inp = .invalid page) := by
  subst h1
  constructor
  · intro h2
    unfold menuStepCore
    rw [if_pos ⟨by omega, rfl, by omega⟩]
  · intro h2
    unfold menuStepCore
    rw [if_neg (by rintro ⟨a, -, c⟩; omega), if_neg (by rintro ⟨-, b, -⟩; exact absurd b (by decide))]
    have ha : goAtoi (s2l "n") = none := by decide
    rw [ha]

/-- A token that parses as an integer is not a navigation token. -/
theorem goAtoi_some_not_nav (inp : List Char) (i : Int) (h : goAtoi inp = some i) :
    inp ≠ s2l "n" ∧ inp ≠ s2l "p" := by
  have ha : goAtoi (s2l "n") = none := by decide
  have hb : goAtoi (s2l "p") = none := by decide
  constructor <;> intro he <;> rw [he] at h
  · rw [ha] at h; exact Option.noConfusion h
  · rw [hb] at h; exact Option.noConfusion h

/-- An integer token is dispatched by its value alone. -/
theorem menuStepCore_int (n page : Nat) (inp : List Char) (i : Int) (h : goAtoi inp = some i) :
    (i = 0 → menuStepCore n page inp = .selectRoot) ∧
    (1 ≤ i → i ≤ (n : Int) → menuStepCore n page inp = .selectEntry (i - 1).toNat) ∧
    (i < 0 ∨ (n : Int) < i → menuStepCore n page inp = .invalid page) := by
  obtain ⟨hn, hp⟩ := goAtoi_some_not_nav inp i h
  unfold menuStepCore
  rw [if_neg (by rintro ⟨-, b, -⟩; exact hn b), if_neg (by rintro ⟨-, b, -⟩; exact hp b), h]
  dsimp only
  refine ⟨fun h0 => by rw [if_pos h0], fun h1 h2 => ?_, fun ho => ?_⟩
  · rw [if_neg (by omega), if_neg (by push_neg; omega)]
  · have hn0 : (0 : Int) ≤ (n : Int) := Int.natCast_nonneg n
    rcases ho with ho | ho
    · rw [if_neg (by omega), if_pos (by left; omega)]
    · rw [if_neg (by omega), if_pos (by right; omega)]

/-- A token that is neither an integer nor a navigation token is an error. -/
theorem menuStepCore_garbage (n page : Nat) (inp : List Char) (h : goAtoi inp = none)
    (hn : inp ≠ s2l "n") (hp : inp ≠ s2l "p") :
    menuStepCore n page inp = .invalid page := by
  unfold menuStepCore
  rw [if_neg (by rintro ⟨-, b, -⟩; exact hn b), if_neg (by rintro ⟨-, b, -⟩; exact hp b), h]

/-- One unfolding of the menu loop. -/
theorem menuLoop_cons (folders : List FolderOption) (page : Nat) (line : List Char)
    (rest : List (List Char)) :
    menuLoop folders page (line :: rest) =
      match menuStep folders.length page line with
      | .nextPage p => menuLoop folders p rest
      | .prevPage p => menuLoop folders p rest
      | .invalid p => menuLoop folders p rest
      | .selectRoot => .selected [] scriptPathMarker
      | .selectEntry i =>
        .selected (((folders.get? i).map fun f => f.path).getD []) scriptPathMarker := rfl

/-- C2.  For a catalog of N entries and one line of input (lowercased and
trimmed before dispatch): the token "n" advances one page exactly when more
pages remain and otherwise errors on the same page; the integer token 0
terminates the loop with the root selected; an integer token i in [1, N]
terminates the loop with entry i-1 selected; an integer token outside
[0, N] or a non-integer token other than "n"/"p" produces an error and
re-enters the loop on the same page. -/
theorem menu_transitions (folders : List FolderOption) (page : Nat) (raw : List Char)
    (rest : List (List Char)) (inp : List Char) (hinp : inp = normalizeInput raw) :
    ((inp = s2l "n" ∧ page + 1 < totalPages folders.length) →
      menuStep folders.length page raw = .nextPage (page + 1) ∧
      menuLoop folders page (raw :: rest) = menuLoop folders (page + 1) rest) ∧
    ((inp = s2l "n" ∧ ¬ page + 1 < totalPages folders.length) →
      menuStep folders.length page raw = .invalid page ∧
      menuLoop folders page (raw :: rest) = menuLoop folders page rest) ∧
    (goAtoi inp = some 0 →
      menuStep folders.length page raw = .selectRoot ∧
      menuLoop folders page (raw :: rest) = .selected [] scriptPathMarker) ∧
    (∀ i : Int, goAtoi inp = some i → 1 ≤ i → i ≤ (folders.length : Int) →
      menuStep folders.length page raw = .selectEntry (i - 1).toNat ∧
      menuLoop folders page (raw :: rest) =
        .selected (((folders.get? (i - 1).toNat).map fun f => f.path).getD [])
          scriptPathMarker) ∧
    (∀ i : Int, goAtoi inp = some i → (i < 0 ∨ (folders.length : Int) < i) →
      menuStep folders.length page raw = .invalid page ∧
      menuLoop folders page (raw :: rest) = menuLoop folders page rest) ∧
    ((goAtoi inp = none ∧ inp ≠ s2l "n" ∧ inp ≠ s2l "p") →
      menuStep folders.length page raw = .invalid page ∧
      menuLoop folders page (raw :: rest) = menuLoop folders page rest) := by
  have hstep : menuStep folders.length page raw = menuStepCore folders.length page inp := by
    rw [hinp]; rfl
  refine ⟨fun ⟨h1, h2⟩ => ?_, fun ⟨h1, h2⟩ => ?_, fun h0 => ?_, fun i hi h1 h2 => ?_,
    fun i hi ho => ?_, fun ⟨h0, hn, hp⟩ => ?_⟩
  · have hs := hstep.trans ((menuStepCore_n_token folders.length page inp h1).1 h2)
    exact ⟨hs, by rw [menuLoop_cons, hs]⟩
  · have hs := hstep.trans ((menuStepCore_n_token folders.length page inp h1).2 h2)
    exact ⟨hs, by rw [menuLoop_cons, hs]⟩
  · have hs := hstep.trans ((menuStepCore_int folders.length page inp 0 h0).1 rfl)
    exact ⟨hs, by rw [menuLoop_cons, hs]⟩
  · have hs := hstep.trans ((menuStepCore_int folders.length page inp i hi).2.1 h1 h2)
    exact ⟨hs, by rw [menuLoop_cons, hs]⟩
  · have hs := hstep.trans ((menuStepCore_int folders.length page inp i hi).2.2 ho)
    exact ⟨hs, by rw [menuLoop_cons, hs]⟩
  · have hs := hstep.trans (menuStepCore_garbage folders.length page inp h0 hn hp)
    exact ⟨hs, by rw [menuLoop_cons, hs]⟩

/-- C2, witness: on a one-entry catalog the token " 1 " (trimmed to the
integer 1) terminates the menu with entry 0 selected. -/
theorem menu_transitions_witness :
    menuStep 1 0 (s2l " 1 ") = .selectEntry ((1 : Int) - 1).toNat ∧
    menuLoop [⟨s2l "a", s2l "a", s2l "SuiteScripts/a"⟩] 0 [s2l " 1 "] =
      .selected
        ((([(⟨s2l "a", s2l "a", s2l "SuiteScripts/a"⟩ : FolderOption)].get?
            ((1 : Int) - 1).toNat).map fun f => f.path).getD [])
        scriptPathMarker :=
  (menu_transitions [⟨s2l "a", s2l "a", s2l "SuiteScripts/a"⟩] 0 (s2l " 1 ") []
    (s2l "1") (by decide)).2.2.2.1 1 (by decide) (by decide) (by decide)

/-- C5.  The page count of the scrollable menu is the ceiling of
entryCount / 20 (it is the least k with entryCount ≤ 20·k), and on an empty
catalog the selector never enters the paginated menu: its result is decided
entirely by the root-placement yes/no question (exit 1 on a failed read,
cancellation on a non-affirmative answer, the root otherwise). -/
theorem pagination_spec :
    (∀ n : Nat, 0 < n →
      n ≤ pageSize * totalPages n ∧ ∀ k : Nat, n ≤ pageSize * k → totalPages n ≤ k) ∧
    (∀ lines : List (List Char), selectScriptFolder [] lines =
      match lines with
      | [] => .exited 1
      | answer :: _ =>
        if normalizeInput answer ≠ s2l "y" ∧ normalizeInput answer ≠ s2l "yes" then
          .exited 0
        else .selected [] scriptPathMarker) := by
  constructor
  · intro n hn
    unfold totalPages pageSize
    constructor
    · omega
    · intro k hk
      omega
  · intro lines
    cases lines <;> rfl

/-- C5, witness: 45 entries give 3 pages, and 3 is least. -/
theorem pagination_spec_witness :
    45 ≤ pageSize * totalPages 45 ∧ totalPages 45 ≤ 3 :=
  ⟨(pagination_spec.1 45 (by decide)).1,
   (pagination_spec.1 45 (by decide)).2 3 (by decide)⟩

/-- C6.  When the folder catalog is empty and the root-placement question is
answered with anything that does not normalize to "y" or "yes", the add
operation ends with exit status 0 and has written no artifact and created
no directory. -/
theorem empty_catalog_cancel (scriptType : List Char) (env : AddEnv)
    (cfg : GoProjectConfig) (nm dline ssDir ans : List Char) (rest : List (List Char))
    (h1 : env.loadConfig = some cfg)
    (h2 : env.args = [nm])
    (h3 : nm ≠ [])
    (h4 : env.descriptionLine = some dline)
    (h5 : scriptType = s2l "userevent" ∨ scriptType = s2l "workflowaction" →
      ∃ rline, env.recordTypeLine = some rline ∧ goTrimSpace rline ≠ [])
    (h6 : env.suiteScriptsDir = some ssDir)
    (hempty : findAllFolders ssDir env.tree [] = [])
    (hlines : env.stdinLines = ans :: rest)
    (hno : normalizeInput ans ≠ s2l "y" ∧ normalizeInput ans ≠ s2l "yes") :
    (runAdd scriptType env).exitCode = some 0 ∧
    (runAdd scriptType env).writes = [] ∧
    (runAdd scriptType env).dirs = [] := by
  have hsel : selectScriptFolder (findAllFolders ssDir env.tree []) env.stdinLines =
      .exited 0 := by
    rw [hempty, hlines]
    simp [selectScriptFolder, hno.1, hno.2]
  by_cases hst : scriptType = s2l "userevent" ∨ scriptType = s2l "workflowaction"
  · obtain ⟨rline, hr1, hr2⟩ := h5 hst
    simp only [runAdd, h1, h2, h4, hr1, h6, hsel, if_pos hst, if_neg hr2, h3,
      if_neg (fun hc => h3 hc)]
    simp
  · simp only [runAdd, h1, h2, h4, h6, hsel, if_neg hst, h3, if_neg (fun hc => h3 hc)]
    simp

/-- C6, witness: declining the root-placement question on an empty catalog
exits with status 0 and writes nothing. -/
theorem empty_catalog_cancel_witness :
    (runAdd (s2l "suitelet") envCancel).exitCode = some 0 ∧
    (runAdd (s2l "suitelet") envCancel).writes = [] ∧
    (runAdd (s2l "suitelet") envCancel).dirs = [] :=
  empty_catalog_cancel (s2l "suitelet") envCancel cfgDemo (s2l "My Report") (s2l "")
    (s2l "SuiteScripts") (s2l "no") [] rfl rfl (by decide) rfl
    (fun h => absurd h (by decide)) rfl (by decide) rfl (by decide)

/-- C3.  On a run that reaches the write phase: the primary artifact is
written first, at the selected subfolder of the SuiteScripts root with name
prefix_scriptName_category.ts; when the category has a record-type mapping
and a nonempty XML template (and is not common), the artifacts are exactly
the primary one and the secondary one at
objectsRoot/projectName/recordTypeTag/prefix_scriptName.xml; and for a
category whose secondary template is empty (per the spec, the categories
with no record-type mapping) exactly one artifact is written, only the
target directory is created, and the run completes normally. -/
theorem artifact_paths (scriptType : List Char) (env : AddEnv) (cfg : GoProjectConfig)
    (nm dline ssDir folder marker : List Char)
    (h1 : env.loadConfig = some cfg)
    (h2 : env.args = [nm])
    (h3 : nm ≠ [])
    (h4 : env.descriptionLine = some dline)
    (h5 : scriptType = s2l "userevent" ∨ scriptType = s2l "workflowaction" →
      ∃ rline, env.recordTypeLine = some rline ∧ goTrimSpace rline ≠ [])
    (h6 : env.suiteScriptsDir = some ssDir)
    (h7 : selectScriptFolder (findAllFolders ssDir env.tree []) env.stdinLines =
      .selected folder marker)
    (h8 : env.mkdirTargetOk = true)
    (h9 : env.writeTsOk = true)
    (h10 : env.mkdirXmlOk = true)
    (h11 : env.writeXmlOk = true) :
    ((runAdd scriptType env).writes.head? =
      some (goJoin (goJoin ssDir folder)
        (companyPrefixOf cfg.companyName ++ '_' :: nm ++ '_' :: scriptType ++ s2l ".ts"))) ∧
    (∀ oDir, env.objectsDir = some oDir → getRecordType scriptType ≠ [] →
      env.templates.xml ≠ [] → scriptType ≠ s2l "common" →
      (runAdd scriptType env).writes =
        [goJoin (goJoin ssDir folder)
          (companyPrefixOf cfg.companyName ++ '_' :: nm ++ '_' :: scriptType ++ s2l ".ts"),
         goJoin (goJoin (goJoin oDir cfg.projectName) (getRecordType scriptType))
          (companyPrefixOf cfg.companyName ++ '_' :: nm ++ s2l ".xml")]) ∧
    (env.templates.xml = [] →
      (runAdd scriptType env).writes =
        [goJoin (goJoin ssDir folder)
          (companyPrefixOf cfg.companyName ++ '_' :: nm ++ '_' :: scriptType ++ s2l ".ts")] ∧
      (runAdd scriptType env).dirs = [goJoin ssDir folder] ∧
      (runAdd scriptType env).exitCode = none) := by
  by_cases hst : scriptType = s2l "userevent" ∨ scriptType = s2l "workflowaction"
  · obtain ⟨rline, hr1, hr2⟩ := h5 hst
    refine ⟨?_, fun oDir ho htag hxml hcom => ?_, fun hxml0 => ?_⟩
    · by_cases hx : env.templates.xml = [] <;>
        by_cases hcm : scriptType = s2l "common" <;>
        cases hobj : env.objectsDir <;>
        by_cases htg : getRecordType scriptType = [] <;>
        simp [runAdd, h1, h2, h4, hr1, h6, h7, h8, h9, h10, h11, hst, hr2, h3, hx,
          hcm, hobj, htg] <;> try rfl
    · simp [runAdd, h1, h2, h4, hr1, h6, h7, h8, h9, h10, h11, hst, hr2, h3, ho,
        htag, hxml, hcom]
    · simp [runAdd, h1, h2, h4, hr1, h6, h7, h8, h9, h10, h11, hst, hr2, h3, hxml0]
  · refine ⟨?_, fun oDir ho htag hxml hcom => ?_, fun hxml0 => ?_⟩
    · by_cases hx : env.templates.xml = [] <;>
        by_cases hcm : scriptType = s2l "common" <;>
        cases hobj : env.objectsDir <;>
        by_cases htg : getRecordType scriptType = [] <;>
        simp [runAdd, h1, h2, h4, h6, h7, h8, h9, h10, h11, hst, h3, hx, hcm, hobj,
          htg] <;> try rfl
    · simp [runAdd, h1, h2, h4, h6, h7, h8, h9, h10, h11, hst, h3, ho, htag, hxml, hcom]
    · simp [runAdd, h1, h2, h4, h6, h7, h8, h9, h10, h11, hst, h3, hxml0]

/-- C3, witness: a bundle invocation (no record-type mapping, empty
secondary template) writes exactly the primary artifact and creates only
the target directory. -/
theorem artifact_paths_witness :
    (runAdd (s2l "bundle") envBundle).writes =
      [goJoin (goJoin (s2l "SuiteScripts") [])
        (companyPrefixOf cfgDemo.companyName ++ '_' :: s2l "My Report" ++ '_' :: s2l "bundle" ++
          s2l ".ts")] ∧
    (runAdd (s2l "bundle") envBundle).dirs = [goJoin (s2l "SuiteScripts") []] ∧
    (runAdd (s2l "bundle") envBundle).exitCode = none :=
  (artifact_paths (s2l "bundle") envBundle cfgDemo (s2l "My Report") (s2l "")
    (s2l "SuiteScripts") [] scriptPathMarker rfl rfl (by decide) rfl
    (fun h => absurd h (by decide)) rfl (by decide) rfl rfl rfl rfl).2.2 rfl

/-- C10.  For a userevent or workflowaction invocation that reaches the
write phase with a nonempty XML template: the secondary artifact's
subdirectory is named by the category's fixed record-type tag from the
internal table (usereventscript, workflowactionscript), the value the user
entered at the record-type prompt appears only as the recordType field of
the rendered template data, and replacing the prompted value by any other
nonempty value changes neither the created directories nor the written
paths. -/
theorem xml_dir_from_table (scriptType : List Char) (env : AddEnv) (cfg : GoProjectConfig)
    (nm dline rline ssDir oDir folder marker : List Char)
    (hst : scriptType = s2l "userevent" ∨ scriptType = s2l "workflowaction")
    (h1 : env.loadConfig = some cfg)
    (h2 : env.args = [nm])
    (h3 : nm ≠ [])
    (h4 : env.descriptionLine = some dline)
    (hr1 : env.recordTypeLine = some rline)
    (hr2 : goTrimSpace rline ≠ [])
    (h6 : env.suiteScriptsDir = some ssDir)
    (h7 : selectScriptFolder (findAllFolders ssDir env.tree []) env.stdinLines =
      .selected folder marker)
    (ho : env.objectsDir = some oDir)
    (hxml : env.templates.xml ≠ [])
    (h8 : env.mkdirTargetOk = true)
    (h9 : env.writeTsOk = true)
    (h10 : env.mkdirXmlOk = true)
    (h11 : env.writeXmlOk = true) :
    (runAdd scriptType env).dirs =
      [goJoin ssDir folder,
       goJoin (goJoin oDir cfg.projectName) (getRecordType scriptType)] ∧
    ((runAdd scriptType env).finalData.map fun d => d.recordType) =
      some (goTrimSpace rline) ∧
    getRecordType (s2l "userevent") = s2l "usereventscript" ∧
    getRecordType (s2l "workflowaction") = s2l "workflowactionscript" ∧
    (∀ rline2, goTrimSpace rline2 ≠ [] →
      (runAdd scriptType { env with recordTypeLine := some rline2 }).dirs =
        (runAdd scriptType env).dirs ∧
      (runAdd scriptType { env with recordTypeLine := some rline2 }).writes =
        (runAdd scriptType env).writes) := by
  have hcm : scriptType ≠ s2l "common" := by
    rcases hst with h | h <;> rw [h] <;> decide
  have htg : getRecordType scriptType ≠ [] := by
    rcases hst with h | h <;> rw [h] <;> decide
  refine ⟨?_, ?_, by decide, by decide, fun rline2 hrl2 => ⟨?_, ?_⟩⟩
  · simp [runAdd, h1, h2, h4, hr1, h6, h7, h8, h9, h10, h11, hst, hr2, h3, ho, htg,
      hxml, hcm]
  · simp [runAdd, h1, h2, h4, hr1, h6, h7, h8, h9, h10, h11, hst, hr2, h3, ho, htg,
      hxml, hcm]
  · simp [runAdd, h1, h2, h4, hr1, h6, h7, h8, h9, h10, h11, hst, hr2, h3, ho, htg,
      hxml, hcm, hrl2]
  · simp [runAdd, h1, h2, h4, hr1, h6, h7, h8, h9, h10, h11, hst, hr2, h3, ho, htg,
      hxml, hcm, hrl2]

/-- C10, witness: a concrete userevent invocation puts the XML artifact
under the fixed tag directory and carries the prompted value only in the
template data. -/
theorem xml_dir_from_table_witness :
    (runAdd (s2l "userevent") envUserEvent).dirs =
      [goJoin (s2l "SuiteScripts") [],
       goJoin (goJoin (s2l "src/Objects") cfgDemo.projectName)
         (getRecordType (s2l "userevent"))] ∧
    ((runAdd (s2l "userevent") envUserEvent).finalData.map fun d => d.recordType) =
      some (goTrimSpace (s2l "CUSTOMER")) ∧
    getRecordType (s2l "userevent") = s2l "usereventscript" ∧
    getRecordType (s2l "workflowaction") = s2l "workflowactionscript" ∧
    (∀ rline2, goTrimSpace rline2 ≠ [] →
      (runAdd (s2l "userevent") { envUserEvent with recordTypeLine := some rline2 }).dirs =
        (runAdd (s2l "userevent") envUserEvent).dirs ∧
      (runAdd (s2l "userevent") { envUserEvent with recordTypeLine := some rline2 }).writes =
        (runAdd (s2l "userevent") envUserEvent).writes) :=
  xml_dir_from_table (s2l "userevent") envUserEvent cfgDemo (s2l "My Report") (s2l "")
    (s2l "CUSTOMER") (s2l "SuiteScripts") (s2l "src/Objects") [] scriptPathMarker
    (Or.inl rfl) rfl rfl (by decide) rfl rfl (by decide) rfl (by decide) rfl
    (by decide) rfl rfl rfl rfl

end NetSuiteCli
